import Mathlib

/-!
Verification of the fee-lottery worker (worker.ts, VRF.ts) against its
specification.  The TypeScript sources are shallowly embedded below:
pure computations become Lean functions, the effectful control flow of
the scheduler tick, the fee-claim routine, the VRF protocol client and
the payout pipeline become functions over explicit environments that
record the outcome of each external call (RPC sends, oracle polls,
mongo writes, ...), and each `throw` becomes an `Except` error value.
-/

namespace FeeLottery

/-! ### Winner selector (VRF.ts, `selectWinnerFromTraders`, lines 284-308) -/

/-- `TraderVolume` record from VRF.ts / getTradersWallet: a wallet address
and its aggregated 24h USD volume.  Volumes are embedded as rationals. -/
structure TraderVolume where
  walletAddress : String
  volumeUsd : ℚ
deriving DecidableEq

/-- Per-trader weight: `Math.max(1, Math.floor(trader.volumeUsd))`. -/
def traderWeight (t : TraderVolume) : ℕ :=
  max 1 (Int.toNat ⌊t.volumeUsd⌋)

/-- `traders.map((trader) => Math.max(1, Math.floor(trader.volumeUsd)))`. -/
def traderWeights (traders : List TraderVolume) : List ℕ :=
  traders.map traderWeight

/-- `weights.reduce((sum, weight) => sum + weight, 0)`. -/
def totalWeight (traders : List TraderVolume) : ℕ :=
  (traderWeights traders).sum

/-- Result record returned by `selectWinnerFromTraders`. -/
structure SelectionResult where
  winner : String
  winnerIndex : ℕ
  totalWeight : ℕ
  selectionValue : ℕ
deriving DecidableEq

/-- The cumulative-weight walk of `selectWinnerFromTraders` (the `for` loop
at VRF.ts lines 296-303): starting from accumulated weight `cum`, return the
offset of the first entry whose cumulative weight exceeds `sel`, or `none`
if the list is exhausted (the defensive-fallback situation). -/
def cumulativeWalk : List ℕ → ℕ → ℕ → Option ℕ
  | [], _, _ => none
  | w :: ws, sel, cum =>
    if sel < cum + w then some 0
    else (cumulativeWalk ws sel (cum + w)).map (fun j => j + 1)

/-- `selectWinnerFromTraders` (VRF.ts lines 289-308): throws on an empty
trader list; otherwise draws `selectionValue = randomValue mod totalWeight`
and walks the cumulative weights; if the walk somehow exhausts the list,
falls back to the last trader. -/
def selectWinnerFromTraders (traders : List TraderVolume) (randomValue : ℕ) :
    Except String SelectionResult :=
  match traders with
  | [] => Except.error "No traders provided."
  | t :: ts =>
    match cumulativeWalk (traderWeights (t :: ts)) (randomValue % totalWeight (t :: ts)) 0 with
    | some i =>
        Except.ok ⟨((t :: ts).getD i t).walletAddress, i, totalWeight (t :: ts),
          randomValue % totalWeight (t :: ts)⟩
    | none =>
        Except.ok ⟨((t :: ts).getD ts.length t).walletAddress, ts.length, totalWeight (t :: ts),
          randomValue % totalWeight (t :: ts)⟩

/-- Winner index actually produced by the selector (junk value
`traders.length` on the empty-list error, which is outside the range). -/
def winnerIndexOf (traders : List TraderVolume) (r : ℕ) : ℕ :=
  match selectWinnerFromTraders traders r with
  | Except.ok res => res.winnerIndex
  | Except.error _ => traders.length

/-- The winner rule the scheduler actually applies (worker.ts line 370):
`randomValue.mod(new BN(traders.length)).toNumber()`. -/
def schedulerWinnerIndex (traders : List TraderVolume) (randomValue : ℕ) : ℕ :=
  randomValue % traders.length

/-! ### Randomness protocol client (VRF.ts) -/

/-- Protocol actions performed against the chain/oracle, for tracing the
order of the VRF phases. -/
inductive VAct
  | commitAct
  | pollAct
  | revealAct
  | consumeAct
deriving DecidableEq

/-- Environment of one VRF round attempt: whether the create+fund+commit
sequence of `requestVRF` succeeds, the randomness account data observed by
each polling attempt of `waitForFulfillment`, whether the reveal transaction
confirms, and the result buffer observed by `consumeRandomness`. -/
structure VrfAttemptEnv where
  requestOk : Bool
  resultAt : ℕ → Option (List ℕ)
  revealOk : Bool
  finalResult : Option (List ℕ)

/-- Big-endian decoding of a byte list, as `new BN(buffer)` does. -/
def decodeBE : List ℕ → ℕ
  | [] => 0
  | b :: bs => b * 256 ^ bs.length + decodeBE bs

/-- `consumeRandomness` (VRF.ts lines 248-261) on the loaded round data:
missing result buffer throws "Randomness not revealed.", an all-zero buffer
throws "Randomness result empty.", otherwise the first 8 bytes are decoded
as an unsigned integer (`new BN(resultBuffer.slice(0, 8))`). -/
def consumeRandomness (result : Option (List ℕ)) : Except String ℕ :=
  match result with
  | none => Except.error "Randomness not revealed."
  | some buf =>
    if buf.all (fun b => b == 0) then Except.error "Randomness result empty."
    else Except.ok (decodeBE (buf.take 8))

/-- `requestVRF` (VRF.ts lines 133-232): generates a fresh account and runs
the create+fund and commit transactions; any failure throws.  The emitted
trace records that the commit sequence was attempted. -/
def requestVRFTr (env : VrfAttemptEnv) : Except String Unit × List VAct :=
  if env.requestOk then (Except.ok (), [VAct.commitAct])
  else (Except.error "VRF commit transaction failed", [VAct.commitAct])

/-- Fulfillment condition of one polling attempt (VRF.ts line 118):
`data.currentRound?.result && !result.every(byte => byte === 0)`. -/
def fulfilledAt (env : VrfAttemptEnv) (attempt : ℕ) : Bool :=
  match env.resultAt attempt with
  | some buf => !(buf.all (fun b => b == 0))
  | none => false

/-- Polling loop of `waitForFulfillment` (VRF.ts lines 111-131): attempts
are numbered from `attempt` with `fuel` attempts remaining. -/
def waitForFulfillmentAux (env : VrfAttemptEnv) : ℕ → ℕ → Bool × List VAct
  | 0, _ => (false, [])
  | fuel + 1, attempt =>
    if fulfilledAt env attempt then (true, [VAct.pollAct])
    else
      match waitForFulfillmentAux env fuel (attempt + 1) with
      | (b, tr) => (b, VAct.pollAct :: tr)

/-- `waitForFulfillment(randomnessAccount, maxRetries = 30)`. -/
def waitForFulfillment (env : VrfAttemptEnv) (maxRetries : ℕ) : Bool × List VAct :=
  waitForFulfillmentAux env maxRetries 1

/-- One attempt of the outer workflow (`executeVRFWorkflow` body, VRF.ts
lines 266-274): requestVRF, then waitForFulfillment, then revealRandomness,
then consumeRandomness; any failure aborts the attempt. -/
def vrfAttempt (env : VrfAttemptEnv) : Except String ℕ × List VAct :=
  match requestVRFTr env with
  | (Except.error e, tr) => (Except.error e, tr)
  | (Except.ok _, tr) =>
    match waitForFulfillment env 30 with
    | (false, tr2) => (Except.error "Oracle failed to fulfill randomness.", tr ++ tr2)
    | (true, tr2) =>
      if env.revealOk then
        match consumeRandomness env.finalResult with
        | Except.error e => (Except.error e, tr ++ tr2 ++ [VAct.revealAct, VAct.consumeAct])
        | Except.ok v => (Except.ok v, tr ++ tr2 ++ [VAct.revealAct, VAct.consumeAct])
      else (Except.error "reveal transaction failed", tr ++ tr2 ++ [VAct.revealAct])

/-- Retry loop of `executeVRFWorkflow` (VRF.ts lines 263-282): each attempt
uses a fresh randomness account (hence a fresh per-attempt environment);
exhausting the attempts rethrows the last error. -/
def executeVRFWorkflowAux (envs : ℕ → VrfAttemptEnv) : ℕ → ℕ → Except String ℕ × List VAct
  | 0, _ => (Except.error "VRF workflow failed after retries.", [])
  | fuel + 1, attempt =>
    match vrfAttempt (envs attempt) with
    | (Except.ok v, tr) => (Except.ok v, tr)
    | (Except.error e, tr) =>
      if fuel = 0 then (Except.error e, tr)
      else
        match executeVRFWorkflowAux envs fuel (attempt + 1) with
        | (r, tr2) => (r, tr ++ tr2)

/-- `executeVRFWorkflow(maxRetries = 3)`. -/
def executeVRFWorkflow (envs : ℕ → VrfAttemptEnv) (maxRetries : ℕ) :
    Except String ℕ × List VAct :=
  executeVRFWorkflowAux envs maxRetries 1

/-- How the scheduler actually obtains its random integer (worker.ts lines
365-367): `requestVRF()` followed immediately by
`consumeRandomness(vrfResult.randomnessAccount)` — no fulfillment polling,
no reveal, no outer retry. -/
def schedulerRandomness (env : VrfAttemptEnv) : Except String ℕ × List VAct :=
  match requestVRFTr env with
  | (Except.error e, tr) => (Except.error e, tr)
  | (Except.ok _, tr) =>
    match consumeRandomness env.finalResult with
    | Except.error e => (Except.error e, tr ++ [VAct.consumeAct])
    | Except.ok v => (Except.ok v, tr ++ [VAct.consumeAct])

/-! ### Fee claim monitor (worker.ts, `claimFeesForToken`, lines 75-186) -/

/-- A claimable position as returned by `sdk.fee.getAllClaimablePositions`:
the fields `claimFeesForToken` reads.  Amount fields are embedded as
rationals; absent fields are `none`. -/
structure ClaimablePosition where
  baseMint : String
  virtualPoolClaimableAmount : Option ℚ
  dammPoolClaimableAmount : Option ℚ
  isCustomFeeVault : Bool
  customFeeVaultBalance : ℚ
  customFeeVaultBps : ℚ
deriving DecidableEq

/-- Pot contribution of one position (worker.ts lines 107-125): virtual-pool
amount plus DAMM-pool amount plus, for custom fee vaults,
`customFeeVaultBalance * (bps / 10000)`.  An absent (or zero) field
contributes 0. -/
def positionClaimable (p : ClaimablePosition) : ℚ :=
  p.virtualPoolClaimableAmount.getD 0 + p.dammPoolClaimableAmount.getD 0 +
    (if p.isCustomFeeVault then p.customFeeVaultBalance * (p.customFeeVaultBps / 10000) else 0)

/-- Outcome of one claim transaction (sign/send/confirm at worker.ts lines
152-176): confirmed, or a send error, or a confirmation error — the two
error kinds are caught by the inner `try`/`catch` and logged. -/
inductive TxOutcome
  | confirmedTx
  | sendError
  | confirmError
deriving DecidableEq

/-- Environment of one `claimFeesForToken` call: the result of
`sdk.fee.getAllClaimablePositions` (which may throw) and, per target
position index, the result of `sdk.fee.getClaimTransaction` (which may
throw) listing the outcomes of the produced claim transactions. -/
structure ClaimEnv where
  allPositions : Except Unit (List ClaimablePosition)
  claimTxs : ℕ → Except Unit (List TxOutcome)

/-- `allPositions.filter(position => position.baseMint === tokenMint)`. -/
def targetsOf (ps : List ClaimablePosition) (mint : String) : List ClaimablePosition :=
  ps.filter (fun p => p.baseMint == mint)

/-- The computed pot size: sum of the per-position claimable amounts. -/
def potOf (targets : List ClaimablePosition) : ℚ :=
  (targets.map positionClaimable).sum

/-- Claim-execution loop (worker.ts lines 137-178) over the target
positions, numbered from `i`: a `getClaimTransaction` failure escapes to
the outer catch (`Except.error`), while each produced transaction is
attempted and its send/confirm error is caught and skipped.  The returned
list records every attempted transaction's outcome, in order. -/
def execPositions (env : ClaimEnv) : ℕ → List ClaimablePosition → Except (List TxOutcome) (List TxOutcome)
  | _, [] => Except.ok []
  | i, _p :: rest =>
    match env.claimTxs i with
    | Except.error _ => Except.error []
    | Except.ok txs =>
      match execPositions env (i + 1) rest with
      | Except.error l => Except.error (txs ++ l)
      | Except.ok l => Except.ok (txs ++ l)

/-- The transactions the environment supplies for the target positions
numbered from `i` (a failed `getClaimTransaction` yields nothing). -/
def plannedTxs (env : ClaimEnv) : ℕ → List ClaimablePosition → List TxOutcome
  | _, [] => []
  | i, _p :: rest =>
    (match env.claimTxs i with
     | Except.ok txs => txs
     | Except.error _ => []) ++ plannedTxs env (i + 1) rest

/-- `claimFeesForToken(tokenMint, keypair)` (worker.ts lines 75-186),
returning `(result, currentPotSize afterwards, attempted transactions)`:
no positions or no matching positions reset the pot to 0 and return
`false`; a sub-threshold sum leaves the pot at the computed sum and
returns `false` with no transaction submitted; otherwise the claim
execution phase runs and the function returns `true`, unless an
unexpected error (position query or transaction building) is caught by
the outer handler, which returns `false` leaving the pot at whatever had
been accumulated. -/
def claimFeesForToken (env : ClaimEnv) (tokenMint : String) (threshold : ℚ) (pot0 : ℚ) :
    Bool × ℚ × List TxOutcome :=
  match env.allPositions with
  | Except.error _ => (false, pot0, [])
  | Except.ok allPositions =>
    if allPositions.isEmpty then (false, 0, [])
    else if (targetsOf allPositions tokenMint).isEmpty then (false, 0, [])
    else if potOf (targetsOf allPositions tokenMint) < threshold then
      (false, potOf (targetsOf allPositions tokenMint), [])
    else
      match execPositions env 0 (targetsOf allPositions tokenMint) with
      | Except.error attempted => (false, potOf (targetsOf allPositions tokenMint), attempted)
      | Except.ok attempted => (true, potOf (targetsOf allPositions tokenMint), attempted)

/-! ### Payout pipeline and scheduler tick (worker.ts, lines 188-311 and 321-387) -/

/-- Shared round state: `isLotteryRunning` and `currentPotSize`. -/
structure RoundState where
  isLotteryRunning : Bool
  currentPotSize : ℚ
deriving DecidableEq

/-- Environment of one `processLottery` call: whether the payout transfer
confirms, the Jupiter quote's `outAmount` (absent means `QuoteFailed`),
whether the swap confirms, the observed token-account balance, whether the
burn confirms, and whether the receipt insert succeeds. -/
structure LotteryEnv where
  payoutOk : Bool
  quoteOutAmount : Option ℚ
  swapOk : Bool
  tokenBalance : ℕ
  burnOk : Bool
  insertOk : Bool

/-- The `try` body of `processLottery` (worker.ts lines 189-303): payout,
quote, swap, burn (skipped on a zero balance), receipt insert; the first
failing step throws. -/
def processLotteryBody (env : LotteryEnv) : Except Unit Unit :=
  if !env.payoutOk then Except.error ()
  else
    match env.quoteOutAmount with
    | none => Except.error ()
    | some _ =>
      if !env.swapOk then Except.error ()
      else if env.tokenBalance > 0 && !env.burnOk then Except.error ()
      else if !env.insertOk then Except.error ()
      else Except.ok ()

/-- `processLottery` (worker.ts lines 188-311): the body's outcome is
rethrown, and the `finally` clause always leaves
`isLotteryRunning = false`, `currentPotSize = 0`. -/
def processLottery (env : LotteryEnv) : Except Unit Unit × RoundState :=
  (processLotteryBody env, ⟨false, 0⟩)

/-- Environment of one scheduler tick (worker.ts lines 321-387): the
fee-claim environment, whether the mongo status upsert succeeds, the
result of `getTradersWallet` (which may throw), the VRF round
environment, whether `new PublicKey(...)` on the selected winner
succeeds, and the payout-pipeline environment. -/
structure TickEnv where
  claimEnv : ClaimEnv
  statusUpdateOk : Bool
  traders : Except Unit (List TraderVolume)
  vrfEnv : VrfAttemptEnv
  winnerParseOk : Bool
  lotteryEnv : LotteryEnv

/-- Result of one tick: the round state afterwards, and the winner index
handed to `processLottery` when the pipeline was invoked. -/
structure TickResult where
  state : RoundState
  paidWinner : Option ℕ
deriving DecidableEq

/-- One firing of the `setInterval` callback (worker.ts lines 321-387).
If `isLotteryRunning` the tick is skipped.  Otherwise the fee monitor
runs, the status is mirrored, and when fees were claimed the flag is set
and the round is sequenced: trader fetch, `requestVRF` +
`consumeRandomness` (see `schedulerRandomness`), the `mod traders.length`
winner draw, and `processLottery`.  Every `throw` lands in the outer
`catch`, which only logs: the flag is cleared again only by the empty
trader-list branch or by `processLottery`'s `finally`. -/
def tick (env : TickEnv) (mint : String) (threshold : ℚ) (s : RoundState) : TickResult :=
  if s.isLotteryRunning then ⟨s, none⟩
  else
    let c := claimFeesForToken env.claimEnv mint threshold s.currentPotSize
    if !env.statusUpdateOk then ⟨⟨false, c.2.1⟩, none⟩
    else if c.1 then
      match env.traders with
      | Except.error _ => ⟨⟨true, c.2.1⟩, none⟩
      | Except.ok traders =>
        if traders.length = 0 then ⟨⟨false, 0⟩, none⟩
        else
          match (schedulerRandomness env.vrfEnv).1 with
          | Except.error _ => ⟨⟨true, c.2.1⟩, none⟩
          | Except.ok randomValue =>
            if env.winnerParseOk then
              ⟨(processLottery env.lotteryEnv).2, some (schedulerWinnerIndex traders randomValue)⟩
            else ⟨⟨true, c.2.1⟩, none⟩
    else ⟨⟨false, c.2.1⟩, none⟩

/-! ### Concrete inputs used by the evaluation theorems and witnesses -/

/-- A single claimable position on the target mint worth 5 lamports. -/
def posA : ClaimablePosition := ⟨"MINT", some 5, none, false, 0, 0⟩

/-- Claim environment where the query finds `posA` and every build
produces one confirming transaction. -/
def claimEnvGood : ClaimEnv := ⟨Except.ok [posA], fun _ => Except.ok [TxOutcome.confirmedTx]⟩

/-- VRF round environment whose commit sequence fails. -/
def vrfEnvFail : VrfAttemptEnv := ⟨false, fun _ => none, false, none⟩

/-- Result buffer whose first 8 bytes decode (big-endian) to 250. -/
def buf250 : List ℕ := [0, 0, 0, 0, 0, 0, 0, 250]

/-- VRF round environment where every phase succeeds and the oracle result
decodes to 250. -/
def vrfEnvGood : VrfAttemptEnv := ⟨true, fun _ => some buf250, true, some buf250⟩

/-- Payout-pipeline environment where every step succeeds. -/
def lotteryEnvGood : LotteryEnv := ⟨true, some 1, true, 10, true, true⟩

/-- The spec's §8 scenario trader list: `[{A,100},{B,300}]`. -/
def traders250 : List TraderVolume := [⟨"A", 100⟩, ⟨"B", 300⟩]

/-- Tick environment: fees claimed over threshold, one trader, VRF fails. -/
def tickEnvVrfFail : TickEnv :=
  ⟨claimEnvGood, true, Except.ok [⟨"A", 100⟩], vrfEnvFail, true, lotteryEnvGood⟩

/-- Tick environment: fees claimed over threshold, traders `[{A,100},{B,300}]`,
VRF succeeds with random value 250, pipeline succeeds. -/
def tickEnv250 : TickEnv :=
  ⟨claimEnvGood, true, Except.ok traders250, vrfEnvGood, true, lotteryEnvGood⟩

/-- Claim environment for the C8 witness: one transaction confirms and one
fails confirmation. -/
def claimEnvMixed : ClaimEnv :=
  ⟨Except.ok [posA], fun _ => Except.ok [TxOutcome.confirmedTx, TxOutcome.confirmError]⟩

/-- Claim environment for the C10 witness: the position query throws. -/
def claimEnvErr : ClaimEnv := ⟨Except.error (), fun _ => Except.ok []⟩

/-! ### Helper lemmas -/

theorem cumulativeWalk_lt_length (ws : List ℕ) (sel cum i : ℕ)
    (h : cumulativeWalk ws sel cum = some i) : i < ws.length := by
  induction ws generalizing cum i with
  | nil => simp [cumulativeWalk] at h
  | cons w ws ih =>
    simp only [cumulativeWalk] at h
    split at h
    · simp only [Option.some.injEq] at h
      simp only [List.length_cons]
      omega
    · rw [Option.map_eq_some'] at h
      obtain ⟨j, hj, hji⟩ := h
      have := ih _ _ hj
      simp only [List.length_cons]
      omega

theorem cumulativeWalk_eq_some_iff (ws : List ℕ) (sel cum i : ℕ) (hcs : cum ≤ sel) :
    cumulativeWalk ws sel cum = some i ↔
      i < ws.length ∧ cum + (ws.take i).sum ≤ sel ∧ sel < cum + (ws.take (i + 1)).sum := by
  induction ws generalizing cum i with
  | nil => simp [cumulativeWalk]
  | cons w ws ih =>
    simp only [cumulativeWalk]
    by_cases h : sel < cum + w
    · rw [if_pos h]
      constructor
      · intro h0
        simp only [Option.some.injEq] at h0
        subst h0
        refine ⟨by simp, by simpa using hcs, ?_⟩
        simpa [List.take_succ_cons] using h
      · rintro ⟨hlen, h1, h2⟩
        match i with
        | 0 => rfl
        | j + 1 =>
          exfalso
          simp only [List.take_succ_cons, List.sum_cons] at h1
          omega
    · rw [if_neg h]
      have hcw : cum + w ≤ sel := by omega
      constructor
      · intro hm
        rw [Option.map_eq_some'] at hm
        obtain ⟨j, hj, hji⟩ := hm
        obtain ⟨hjl, hj1, hj2⟩ := (ih (cum + w) j hcw).mp hj
        subst hji
        refine ⟨by simp; omega, ?_, ?_⟩
        · simpa [List.take_succ_cons, Nat.add_assoc] using hj1
        · simpa [List.take_succ_cons, Nat.add_assoc] using hj2
      · rintro ⟨hlen, h1, h2⟩
        match i with
        | 0 =>
          exfalso
          simp only [List.take_succ_cons, List.take_zero, List.sum_cons, List.sum_nil] at h2
          omega
        | j + 1 =>
          rw [Option.map_eq_some']
          refine ⟨j, ?_, rfl⟩
          rw [ih (cum + w) j hcw]
          simp only [List.take_succ_cons, List.sum_cons, List.length_cons] at hlen h1 h2 ⊢
          refine ⟨by omega, by omega, by omega⟩

theorem cumulativeWalk_eq_none_iff (ws : List ℕ) (sel cum : ℕ) (hcs : cum ≤ sel) :
    cumulativeWalk ws sel cum = none ↔ cum + ws.sum ≤ sel := by
  induction ws generalizing cum with
  | nil => simpa [cumulativeWalk] using hcs
  | cons w ws ih =>
    simp only [cumulativeWalk, List.sum_cons]
    by_cases h : sel < cum + w
    · rw [if_pos h]
      simp only [reduceCtorEq, false_iff]
      omega
    · rw [if_neg h, Option.map_eq_none']
      rw [ih (cum + w) (by omega)]
      omega

theorem sum_take_le_sum (ws : List ℕ) (n : ℕ) : (ws.take n).sum ≤ ws.sum := by
  conv_rhs => rw [← List.take_append_drop n ws]
  rw [List.sum_append]
  exact Nat.le_add_right _ _

theorem totalWeight_pos (traders : List TraderVolume) (h : traders ≠ []) :
    0 < totalWeight traders := by
  match traders, h with
  | t :: ts, _ =>
    have h1 : 1 ≤ traderWeight t := le_max_left 1 _
    simp only [totalWeight, traderWeights, List.map_cons, List.sum_cons]
    omega

theorem winnerIndexOf_eq_walk (t : TraderVolume) (ts : List TraderVolume) (r j : ℕ)
    (hj : cumulativeWalk (traderWeights (t :: ts)) (r % totalWeight (t :: ts)) 0 = some j) :
    winnerIndexOf (t :: ts) r = j := by
  unfold winnerIndexOf selectWinnerFromTraders
  simp only [hj]

theorem targetsOf_ne_imp_ps_ne {ps : List ClaimablePosition} {mint : String}
    (h : targetsOf ps mint ≠ []) : ps.isEmpty = false := by
  cases ps with
  | nil => exact absurd rfl h
  | cons p rest => rfl

theorem claimFees_below (env : ClaimEnv) (mint : String) (threshold pot0 : ℚ)
    (ps : List ClaimablePosition) (hps : env.allPositions = Except.ok ps)
    (hne : targetsOf ps mint ≠ []) (hlt : potOf (targetsOf ps mint) < threshold) :
    claimFeesForToken env mint threshold pot0 = (false, potOf (targetsOf ps mint), []) := by
  simp only [claimFeesForToken, hps]
  rw [targetsOf_ne_imp_ps_ne hne]
  rw [List.isEmpty_eq_false.mpr hne]
  simp only [Bool.false_eq_true, if_false, if_pos hlt]

theorem claimFees_atLeast (env : ClaimEnv) (mint : String) (threshold pot0 : ℚ)
    (ps : List ClaimablePosition) (hps : env.allPositions = Except.ok ps)
    (hne : targetsOf ps mint ≠ []) (hge : threshold ≤ potOf (targetsOf ps mint)) :
    claimFeesForToken env mint threshold pot0 =
      match execPositions env 0 (targetsOf ps mint) with
      | Except.error l => (false, potOf (targetsOf ps mint), l)
      | Except.ok l => (true, potOf (targetsOf ps mint), l) := by
  simp only [claimFeesForToken, hps]
  rw [targetsOf_ne_imp_ps_ne hne]
  rw [List.isEmpty_eq_false.mpr hne]
  rw [if_neg (not_lt.mpr hge)]
  simp only [Bool.false_eq_true, if_false]

theorem execPositions_ok (env : ClaimEnv) (targets : List ClaimablePosition) :
    ∀ i : ℕ, (∀ j : ℕ, j < targets.length → ∃ txs, env.claimTxs (i + j) = Except.ok txs) →
      execPositions env i targets = Except.ok (plannedTxs env i targets) := by
  induction targets with
  | nil =>
    intro i _
    rfl
  | cons p rest ih =>
    intro i hok
    obtain ⟨txs, htxs⟩ := hok 0 (by simp)
    rw [Nat.add_zero] at htxs
    have hrest : ∀ j : ℕ, j < rest.length → ∃ t2, env.claimTxs (i + 1 + j) = Except.ok t2 := by
      intro j hj
      have := hok (j + 1) (by simp; omega)
      simpa [Nat.add_assoc, Nat.add_comm 1 j] using this
    simp only [execPositions, plannedTxs, htxs, ih (i + 1) hrest]

/-! ### Claim theorems -/

/-- Claim C4: for every non-empty trader list and every randomValue,
`selectWinnerFromTraders` returns a winner index `i` with
`0 ≤ i < len(traders)`; for the empty list it fails with the no-traders
error. -/
theorem selectWinner_range :
    (∀ (traders : List TraderVolume) (r : ℕ), traders ≠ [] →
        ∃ res, selectWinnerFromTraders traders r = Except.ok res ∧
          res.winnerIndex < traders.length) ∧
    (∀ r : ℕ, selectWinnerFromTraders [] r = Except.error "No traders provided.") := by
  constructor
  · intro traders r h
    match traders, h with
    | t :: ts, _ =>
      simp only [selectWinnerFromTraders]
      cases hw : cumulativeWalk (traderWeights (t :: ts)) (r % totalWeight (t :: ts)) 0 with
      | some i =>
        refine ⟨_, rfl, ?_⟩
        have := cumulativeWalk_lt_length _ _ _ _ hw
        simpa [traderWeights] using this
      | none =>
        refine ⟨_, rfl, ?_⟩
        simp
  · intro r
    rfl

/-- Witness for C4 at the one-trader list `[{A,100}]` and randomValue 7. -/
theorem selectWinner_range_witness :
    (([⟨"A", 100⟩] : List TraderVolume) ≠ []) ∧
    (∃ res, selectWinnerFromTraders ([⟨"A", 100⟩] : List TraderVolume) 7 = Except.ok res ∧
      res.winnerIndex < ([⟨"A", 100⟩] : List TraderVolume).length) :=
  ⟨by simp, selectWinner_range.1 [⟨"A", 100⟩] 7 (by simp)⟩

/-- Claim C6: for every non-empty trader list and every randomValue, the
selection value is strictly below the total weight, the walked weights sum
to the total weight, and the cumulative walk selects a trader before the
list is exhausted, so the defensive last-trader fallback branch of
`selectWinnerFromTraders` is unreachable. -/
theorem selectWinner_no_fallback (traders : List TraderVolume) (r : ℕ) (h : traders ≠ []) :
    r % totalWeight traders < totalWeight traders ∧
    (traderWeights traders).sum = totalWeight traders ∧
    cumulativeWalk (traderWeights traders) (r % totalWeight traders) 0 ≠ none := by
  have hpos : 0 < totalWeight traders := totalWeight_pos traders h
  refine ⟨Nat.mod_lt r hpos, rfl, ?_⟩
  rw [ne_eq, cumulativeWalk_eq_none_iff _ _ 0 (Nat.zero_le _)]
  have hT : (traderWeights traders).sum = totalWeight traders := rfl
  have hm := Nat.mod_lt r hpos
  omega

/-- Witness for C6 at the spec's §8 trader list and randomValue 250. -/
theorem selectWinner_no_fallback_witness :
    traders250 ≠ [] ∧
    (250 % totalWeight traders250 < totalWeight traders250 ∧
      (traderWeights traders250).sum = totalWeight traders250 ∧
      cumulativeWalk (traderWeights traders250) (250 % totalWeight traders250) 0 ≠ none) :=
  ⟨by decide, selectWinner_no_fallback traders250 250 (by decide)⟩

/-- Claim C5: for every non-empty trader list and every trader index `i`,
the number of selection values `s` in `[0, totalWeight)` for which the
cumulative-weight walk picks trader `i` equals
`weight_i = max(1, floor(volumeUsd_i))`. -/
theorem selectWinner_mass (traders : List TraderVolume) (i : ℕ)
    (h : traders ≠ []) (hi : i < traders.length) :
    ((Finset.range (totalWeight traders)).filter (fun s => winnerIndexOf traders s = i)).card
      = traderWeight (traders.get ⟨i, hi⟩) := by
  match traders, h with
  | t :: ts, _ =>
    have hlen : (traderWeights (t :: ts)).length = (t :: ts).length := by
      simp [traderWeights]
    have hilen : i < (traderWeights (t :: ts)).length := by
      rw [hlen]
      exact hi
    have hsum_le : ((traderWeights (t :: ts)).take (i + 1)).sum ≤ totalWeight (t :: ts) :=
      sum_take_le_sum _ _
    have key : ∀ s : ℕ, s < totalWeight (t :: ts) →
        (winnerIndexOf (t :: ts) s = i ↔
          ((traderWeights (t :: ts)).take i).sum ≤ s ∧
            s < ((traderWeights (t :: ts)).take (i + 1)).sum) := by
      intro s hs
      have hmod : s % totalWeight (t :: ts) = s := Nat.mod_eq_of_lt hs
      constructor
      · intro hw
        have hnn : cumulativeWalk (traderWeights (t :: ts)) s 0 ≠ none := by
          rw [ne_eq, cumulativeWalk_eq_none_iff _ _ 0 (Nat.zero_le _)]
          have hT : (traderWeights (t :: ts)).sum = totalWeight (t :: ts) := rfl
          omega
        obtain ⟨j, hj⟩ := Option.ne_none_iff_exists'.mp hnn
        have hj2 : cumulativeWalk (traderWeights (t :: ts)) (s % totalWeight (t :: ts)) 0
            = some j := by
          rw [hmod]
          exact hj
        have hwj := winnerIndexOf_eq_walk t ts s j hj2
        have hij : j = i := by
          rw [hw] at hwj
          omega
        subst hij
        obtain ⟨_, hb1, hb2⟩ := (cumulativeWalk_eq_some_iff _ s 0 j (Nat.zero_le s)).mp hj
        constructor
        · omega
        · omega
      · rintro ⟨h1, h2⟩
        have hj : cumulativeWalk (traderWeights (t :: ts)) s 0 = some i := by
          rw [cumulativeWalk_eq_some_iff _ s 0 i (Nat.zero_le s)]
          refine ⟨hilen, by omega, by omega⟩
        have hj2 : cumulativeWalk (traderWeights (t :: ts)) (s % totalWeight (t :: ts)) 0
            = some i := by
          rw [hmod]
          exact hj
        exact winnerIndexOf_eq_walk t ts s i hj2
    have hset : (Finset.range (totalWeight (t :: ts))).filter
          (fun s => winnerIndexOf (t :: ts) s = i)
        = Finset.Ico (((traderWeights (t :: ts)).take i).sum)
            (((traderWeights (t :: ts)).take (i + 1)).sum) := by
      ext s
      simp only [Finset.mem_filter, Finset.mem_range, Finset.mem_Ico]
      constructor
      · rintro ⟨hs, hw⟩
        exact (key s hs).mp hw
      · rintro ⟨h1, h2⟩
        have hs : s < totalWeight (t :: ts) := lt_of_lt_of_le h2 hsum_le
        exact ⟨hs, (key s hs).mpr ⟨h1, h2⟩⟩
    rw [hset, Nat.card_Ico, List.sum_take_succ _ i hilen, Nat.add_sub_cancel_left]
    simp only [traderWeights, List.getElem_map, List.get_eq_getElem]

/-- Witness for C5: on `[{A,100},{B,300}]`, trader 1 owns exactly 300 of
the 400 selection values. -/
theorem selectWinner_mass_witness :
    traders250 ≠ [] ∧
    ((Finset.range (totalWeight traders250)).filter
        (fun s => winnerIndexOf traders250 s = 1)).card
      = traderWeight (traders250.get ⟨1, by decide⟩) :=
  ⟨by decide, selectWinner_mass traders250 1 (by decide) (by decide)⟩

theorem potOf_posA : potOf (targetsOf [posA] "MINT") = 5 := by
  simp [potOf, targetsOf, posA, positionClaimable]

/-- Claim C7: `claimFeesForToken` proceeds to claim execution exactly when
the computed claimable sum is at or above the threshold (so equality
triggers execution); strictly below it, it returns `false`, submits no
transaction, and the pot still records the sub-threshold sum. -/
theorem claimFees_threshold (env : ClaimEnv) (mint : String) (threshold pot0 : ℚ)
    (ps : List ClaimablePosition) (hps : env.allPositions = Except.ok ps)
    (hne : targetsOf ps mint ≠ []) :
    (potOf (targetsOf ps mint) < threshold →
        claimFeesForToken env mint threshold pot0 = (false, potOf (targetsOf ps mint), [])) ∧
    (threshold ≤ potOf (targetsOf ps mint) →
        claimFeesForToken env mint threshold pot0 =
          match execPositions env 0 (targetsOf ps mint) with
          | Except.error l => (false, potOf (targetsOf ps mint), l)
          | Except.ok l => (true, potOf (targetsOf ps mint), l)) :=
  ⟨fun hlt => claimFees_below env mint threshold pot0 ps hps hne hlt,
   fun hge => claimFees_atLeast env mint threshold pot0 ps hps hne hge⟩

/-- Witness for C7 at the exact boundary: one position worth 5 and a
threshold of exactly 5 → claim execution runs and returns `true`. -/
theorem claimFees_threshold_witness :
    claimEnvGood.allPositions = Except.ok [posA] ∧
    targetsOf [posA] "MINT" ≠ [] ∧
    (5 : ℚ) ≤ potOf (targetsOf [posA] "MINT") ∧
    claimFeesForToken claimEnvGood "MINT" 5 0 =
      match execPositions claimEnvGood 0 (targetsOf [posA] "MINT") with
      | Except.error l => (false, potOf (targetsOf [posA] "MINT"), l)
      | Except.ok l => (true, potOf (targetsOf [posA] "MINT"), l) :=
  ⟨rfl, by decide, by rw [potOf_posA],
   (claimFees_threshold claimEnvGood "MINT" 5 0 [posA] rfl (by decide)).2 (by rw [potOf_posA])⟩

/-- Claim C8: once the execution phase is reached (sum at/above threshold
and every `getClaimTransaction` succeeds), each produced transaction is
attempted — a send/confirm error is skipped without aborting the rest —
the function returns `true` regardless of individual outcomes, and the pot
equals the pre-claim computed sum. -/
theorem claimFees_failed_txs_skipped (env : ClaimEnv) (mint : String) (threshold pot0 : ℚ)
    (ps : List ClaimablePosition) (hps : env.allPositions = Except.ok ps)
    (hne : targetsOf ps mint ≠ [])
    (hge : threshold ≤ potOf (targetsOf ps mint))
    (hbuild : ∀ j : ℕ, j < (targetsOf ps mint).length →
        ∃ txs, env.claimTxs j = Except.ok txs) :
    claimFeesForToken env mint threshold pot0 =
      (true, potOf (targetsOf ps mint), plannedTxs env 0 (targetsOf ps mint)) := by
  have hexec : execPositions env 0 (targetsOf ps mint)
      = Except.ok (plannedTxs env 0 (targetsOf ps mint)) := by
    refine execPositions_ok env (targetsOf ps mint) 0 ?_
    intro j hj
    simpa using hbuild j hj
  rw [claimFees_atLeast env mint threshold pot0 ps hps hne hge, hexec]

/-- Witness for C8: with one confirmed and one failed transaction the call
still returns `true` and the pot is the full pre-claim sum 5. -/
theorem claimFees_failed_txs_skipped_witness :
    claimEnvMixed.allPositions = Except.ok [posA] ∧
    targetsOf [posA] "MINT" ≠ [] ∧
    (1 : ℚ) ≤ potOf (targetsOf [posA] "MINT") ∧
    claimFeesForToken claimEnvMixed "MINT" 1 0 =
      (true, potOf (targetsOf [posA] "MINT"), plannedTxs claimEnvMixed 0 (targetsOf [posA] "MINT")) :=
  ⟨rfl, by decide, by rw [potOf_posA]; norm_num,
   claimFees_failed_txs_skipped claimEnvMixed "MINT" 1 0 [posA] rfl (by decide)
     (by rw [potOf_posA]; norm_num)
     (fun j _ => ⟨[TxOutcome.confirmedTx, TxOutcome.confirmError], rfl⟩)⟩

/-- Claim C10: `claimFeesForToken` catches every error and returns a
boolean; on the unexpected-error paths it returns `false` and the pot is
left at whatever had been accumulated before the error — `pot0` when the
position query itself fails, and the full computed sum when transaction
building fails during execution — rather than being reset to 0. -/
theorem claimFees_never_throws :
    (∀ (env : ClaimEnv) (mint : String) (threshold pot0 : ℚ),
        env.allPositions = Except.error () →
        claimFeesForToken env mint threshold pot0 = (false, pot0, [])) ∧
    (∀ (env : ClaimEnv) (mint : String) (threshold pot0 : ℚ)
        (ps : List ClaimablePosition) (l : List TxOutcome),
        env.allPositions = Except.ok ps →
        targetsOf ps mint ≠ [] →
        threshold ≤ potOf (targetsOf ps mint) →
        execPositions env 0 (targetsOf ps mint) = Except.error l →
        claimFeesForToken env mint threshold pot0 = (false, potOf (targetsOf ps mint), l)) := by
  constructor
  · intro env mint threshold pot0 herr
    unfold claimFeesForToken
    rw [herr]
  · intro env mint threshold pot0 ps l hps hne hge hexec
    rw [claimFees_atLeast env mint threshold pot0 ps hps hne hge, hexec]

/-- Witness for C10: with a failing position query and a prior pot of 7,
the call returns `false` and the pot stays 7 (not reset to 0). -/
theorem claimFees_never_throws_witness :
    claimEnvErr.allPositions = Except.error () ∧
    claimFeesForToken claimEnvErr "MINT" 1 7 = (false, 7, []) :=
  ⟨rfl, claimFees_never_throws.1 claimEnvErr "MINT" 1 7 rfl⟩

/-- Claim C9: `consumeRandomness` fails exactly when the round's result
buffer is missing or all-zero; otherwise it returns the unsigned integer
decoded from the buffer's first 8 bytes, so a value is only readable once
a non-zero result buffer has been observed. -/
theorem consume_result_spec :
    (∀ result : Option (List ℕ),
        (∃ e, consumeRandomness result = Except.error e) ↔
          (result = none ∨ ∃ buf, result = some buf ∧ buf.all (fun b => b == 0) = true)) ∧
    (∀ buf : List ℕ, buf.all (fun b => b == 0) = false →
        consumeRandomness (some buf) = Except.ok (decodeBE (buf.take 8))) := by
  constructor
  · intro result
    cases result with
    | none =>
      constructor
      · intro _
        exact Or.inl rfl
      · intro _
        exact ⟨"Randomness not revealed.", rfl⟩
    | some buf =>
      by_cases h : buf.all (fun b => b == 0) = true
      · constructor
        · intro _
          exact Or.inr ⟨buf, rfl, h⟩
        · intro _
          refine ⟨"Randomness result empty.", ?_⟩
          simp [consumeRandomness, h]
      · constructor
        · rintro ⟨e, he⟩
          simp [consumeRandomness, h] at he
        · rintro (hnone | ⟨buf2, hbuf2, hall⟩)
          · exact absurd hnone (by simp)
          · cases hbuf2
            exact absurd hall h
  · intro buf h
    simp [consumeRandomness, h]

/-- Witness for C9 at the buffer `[0,...,0,250]`: not all-zero, so consume
succeeds with the decoded value. -/
theorem consume_result_spec_witness :
    buf250.all (fun b => b == 0) = false ∧
    consumeRandomness (some buf250) = Except.ok (decodeBE (buf250.take 8)) :=
  ⟨by decide, consume_result_spec.2 buf250 (by decide)⟩

/-- Claim C1 (refuted, code bug): a tick that claims fees above threshold
(pot 5 ≥ 1), finds a trader, and then sees `requestVRF` fail ends with
`isLotteryRunning` still `true` — the outer catch only logs — and every
subsequent tick, under any environment whatsoever, then skips and leaves
the state unchanged, so the worker is stuck forever. -/
theorem tick_leaves_flag_set_on_vrf_failure :
    (tick tickEnvVrfFail "MINT" 1 ⟨false, 0⟩).state = ⟨true, 5⟩ ∧
    ∀ env2 : TickEnv, (tick env2 "MINT" 1 ⟨true, 5⟩).state = ⟨true, 5⟩ := by
  constructor
  · norm_num [tick, tickEnvVrfFail, claimFeesForToken, claimEnvGood, targetsOf, posA, potOf,
      positionClaimable, execPositions, schedulerRandomness, requestVRFTr, vrfEnvFail]
  · intro env2
    rfl

/-- Claim C2 (refuted, code bug): on the spec's own scenario — traders
`[{A,100},{B,300}]` and random value 250 — the scheduler pays out trader
index 0 (`250 mod 2`), while `selectWinnerFromTraders` on the same list
and random value picks index 1 by the weighted cumulative draw. -/
theorem scheduler_winner_differs_from_selector :
    (tick tickEnv250 "MINT" 1 ⟨false, 0⟩).paidWinner = some 0 ∧
    (∃ res, selectWinnerFromTraders traders250 250 = Except.ok res ∧ res.winnerIndex = 1) := by
  constructor
  · norm_num [tick, tickEnv250, claimFeesForToken, claimEnvGood, targetsOf, posA, potOf,
      positionClaimable, execPositions, schedulerRandomness, requestVRFTr, vrfEnvGood,
      consumeRandomness, buf250, decodeBE, schedulerWinnerIndex, traders250, processLottery]
  · exact ⟨⟨"B", 1, 400, 250⟩, rfl, rfl⟩

/-- Claim C3 (refuted, code bug): the scheduler's randomness acquisition
performs no reveal and no fulfillment poll under any environment, whereas
`executeVRFWorkflow` — which the worker never calls — performs
commit, poll, reveal, consume in order on a successful attempt; at the
all-good environment the two traces differ. -/
theorem scheduler_randomness_skips_workflow :
    (∀ env : VrfAttemptEnv,
        ((schedulerRandomness env).2.count VAct.revealAct = 0 ∧
          (schedulerRandomness env).2.count VAct.pollAct = 0)) ∧
    (executeVRFWorkflow (fun _ => vrfEnvGood) 3).2
      = [VAct.commitAct, VAct.pollAct, VAct.revealAct, VAct.consumeAct] ∧
    (schedulerRandomness vrfEnvGood).2 = [VAct.commitAct, VAct.consumeAct] := by
  refine ⟨?_, rfl, rfl⟩
  intro env
  unfold schedulerRandomness requestVRFTr
  by_cases h : env.requestOk
  · rw [if_pos h]
    cases hc : consumeRandomness env.finalResult <;> simp
  · rw [if_neg h]
    simp

end FeeLottery
